import Mathlib

/-!
Shallow embedding of the credits (daily quota) ledger service from
`src/backend/app/services/credits_service.py` (class `CreditsService`).

Modelling decisions:
* All operations act on a single user's persisted record, so the store state
  is `Option UserCredits` (`none` = no row for that user).
* Python `date.today()` is an explicit `today : Nat` parameter (days since an
  arbitrary epoch); `date` comparison `<` / `==` becomes `Nat` comparison.
* `credits.credits` is an `Int` (Python ints; the code subtracts freely).
* Python `//` is floor division, embedded as `Int.fdiv`.
* `HTTPException` raising is embedded as `Except CreditsError`; each operation
  returns its result together with the persisted post-state.  On the failure
  paths the post-state reflects what was actually committed before the raise
  (uncommitted ORM mutations are rolled back when the session closes).
-/

namespace CreditsService

/-- `DAILY_QUOTA_FULL = 30` (registered account). -/
def DAILY_QUOTA_FULL : Int := 30

/-- `DAILY_QUOTA_TRIAL = 10` (anonymous / trial account). -/
def DAILY_QUOTA_TRIAL : Int := 10

/-- `TOKENS_PER_GEM = 1000`. -/
def TOKENS_PER_GEM : Int := 1000

/-- `SCAN_COST = 5`. -/
def SCAN_COST : Int := 5

/-- `CHAT_COST = 1`. -/
def CHAT_COST : Int := 1

/-- The persisted `UserCredits` row for one user (`user_id` is the lookup key
and `updated_at` is observability-only, so neither is modelled). -/
structure UserCredits where
  credits : Int
  quota_reset_date : Option Nat
deriving DecidableEq

/-- Error kinds raised by the service (`HTTPException` 402 / 403 in the code). -/
inductive CreditsError where
  | insufficientBalance (available required : Int)
  | quotaExhaustedForToday
deriving DecidableEq

/-- `CreditsService.calculate_cost_from_tokens`. -/
def calculate_cost_from_tokens (total_tokens : Int) : Int :=
  if total_tokens ≤ 0 then 1
  else max 1 ((total_tokens + TOKENS_PER_GEM - 1).fdiv TOKENS_PER_GEM)

/-- `CreditsService._get_daily_quota`. -/
def get_daily_quota (is_anonymous : Bool) : Int :=
  if is_anonymous then DAILY_QUOTA_TRIAL else DAILY_QUOTA_FULL

/-- `CreditsService._should_reset_quota`: reset is due when the stored date is
unset or strictly before today. -/
def should_reset_quota (today : Nat) (credits : UserCredits) : Bool :=
  match credits.quota_reset_date with
  | none => true
  | some d => decide (d < today)

/-- `CreditsService.get_or_create`: the record returned to the caller (created
with today's quota if absent, reset to today's quota if a reset is due,
otherwise the stored record unchanged). -/
def get_or_create (today : Nat) (is_anonymous : Bool) (s : Option UserCredits) :
    UserCredits :=
  match s with
  | none =>
      { credits := get_daily_quota is_anonymous, quota_reset_date := some today }
  | some credits =>
      if should_reset_quota today credits then
        { credits := get_daily_quota is_anonymous, quota_reset_date := some today }
      else credits

/-- Persisted store state after `get_or_create` (it commits what it returns). -/
def get_or_create_state (today : Nat) (is_anonymous : Bool)
    (s : Option UserCredits) : Option UserCredits :=
  some (get_or_create today is_anonymous s)

/-- `CreditsService.get_credits`: balance after the lazy create / daily reset. -/
def get_credits (today : Nat) (is_anonymous : Bool) (s : Option UserCredits) :
    Int :=
  (get_or_create today is_anonymous s).credits

/-- The cost-resolution step shared verbatim by `ensure_credits` (with
`estimated_tokens`) and `consume` (with `actual_tokens`): a supplied positive
token count overrides the fixed cost via `calculate_cost_from_tokens`. -/
def resolve_cost (cost : Int) (tokens : Option Int) : Int :=
  match tokens with
  | some t => if 0 < t then calculate_cost_from_tokens t else cost
  | none => cost

/-- `CreditsService.ensure_credits`: look-before-you-leap sufficiency check.
Returns the check's outcome and the persisted post-state (the only commit on
this path is the one inside `get_or_create`). -/
def ensure_credits (today : Nat) (cost : Int) (estimated_tokens : Option Int)
    (is_anonymous : Bool) (s : Option UserCredits) :
    Except CreditsError Unit × Option UserCredits :=
  let cost := resolve_cost cost estimated_tokens
  let credits := get_or_create today is_anonymous s
  if credits.credits < cost then
    (Except.error (CreditsError.insufficientBalance credits.credits cost),
      some credits)
  else
    (Except.ok (), some credits)

/-- `CreditsService.consume`: resolves the effective cost, applies the daily
reset via `get_or_create`, re-reads the record, re-checks the reset (the
in-session mutation is only committed together with a successful debit),
and debits when the balance suffices.  Returns the new balance or
`insufficientBalance`, with the persisted post-state. -/
def consume (today : Nat) (cost : Int) (actual_tokens : Option Int)
    (is_anonymous : Bool) (s : Option UserCredits) :
    Except CreditsError Int × Option UserCredits :=
  let cost := resolve_cost cost actual_tokens
  let s1 := get_or_create_state today is_anonymous s
  match s1 with
  | none =>
      -- mirrors the `if not credits` re-creation branch (a cross-session race
      -- guard; unreachable here since `get_or_create` always persists a row)
      let credits : UserCredits :=
        { credits := get_daily_quota is_anonymous, quota_reset_date := some today }
      if credits.credits < cost then
        (Except.error (CreditsError.insufficientBalance credits.credits cost),
          some credits)
      else
        (Except.ok (credits.credits - cost),
          some { credits with credits := credits.credits - cost })
  | some credits =>
      let c1 :=
        if should_reset_quota today credits then
          { credits with credits := get_daily_quota is_anonymous,
                         quota_reset_date := some today }
        else credits
      if c1.credits < cost then
        -- the raise happens before any commit: the in-session reset on `c1`
        -- is rolled back, the store keeps the state `get_or_create` committed
        (Except.error (CreditsError.insufficientBalance c1.credits cost), s1)
      else
        let c2 := { c1 with credits := c1.credits - cost }
        (Except.ok c2.credits, some c2)

/-- `CreditsService.add_credits`: refuses with `quotaExhaustedForToday` when
the (post-`get_or_create`) balance is 0 and the reset date is today; otherwise
applies any due reset and adds the bonus amount. -/
def add_credits (today : Nat) (amount : Int) (is_anonymous : Bool)
    (s : Option UserCredits) :
    Except CreditsError Int × Option UserCredits :=
  let s1 := get_or_create_state today is_anonymous s
  match s1 with
  | none =>
      -- mirrors the `if not credits` re-creation branch (unreachable here)
      let credits : UserCredits :=
        { credits := get_daily_quota is_anonymous + amount,
          quota_reset_date := some today }
      (Except.ok credits.credits, some credits)
  | some credits =>
      if credits.credits = 0 ∧ credits.quota_reset_date = some today then
        (Except.error CreditsError.quotaExhaustedForToday, s1)
      else
        let c1 :=
          if should_reset_quota today credits then
            { credits with credits := get_daily_quota is_anonymous,
                           quota_reset_date := some today }
          else credits
        let c2 := { c1 with credits := c1.credits + amount }
        (Except.ok c2.credits, some c2)

/-- One ledger operation together with its parameters (the spec's five public
operations; `getBalance` is `get_credits`, `addBonus` is `add_credits`). -/
inductive Op where
  | getOrCreate (is_anonymous : Bool)
  | getBalance (is_anonymous : Bool)
  | ensureSufficient (cost : Int) (estimated_tokens : Option Int)
      (is_anonymous : Bool)
  | consume (cost : Int) (actual_tokens : Option Int) (is_anonymous : Bool)
  | addBonus (amount : Int) (is_anonymous : Bool)
deriving DecidableEq

/-- Persisted post-state of one operation executed on day `today`. -/
def stepState (op : Op) (today : Nat) (s : Option UserCredits) :
    Option UserCredits :=
  match op with
  | Op.getOrCreate a => get_or_create_state today a s
  | Op.getBalance a => get_or_create_state today a s
  | Op.ensureSufficient cost est a => (ensure_credits today cost est a s).2
  | Op.consume cost act a => (consume today cost act a s).2
  | Op.addBonus amount a => (add_credits today amount a s).2

/-- Whether the operation completed successfully (no exception raised). -/
def stepOk (op : Op) (today : Nat) (s : Option UserCredits) : Bool :=
  match op with
  | Op.getOrCreate _ => true
  | Op.getBalance _ => true
  | Op.ensureSufficient cost est a =>
      match (ensure_credits today cost est a s).1 with
      | Except.ok _ => true
      | Except.error _ => false
  | Op.consume cost act a =>
      match (consume today cost act a s).1 with
      | Except.ok _ => true
      | Except.error _ => false
  | Op.addBonus amount a =>
      match (add_credits today amount a s).1 with
      | Except.ok _ => true
      | Except.error _ => false

/-- The stored balance is nonnegative (vacuously true for an absent row). -/
def balNonneg : Option UserCredits → Bool
  | none => true
  | some c => decide (0 ≤ c.credits)

/-- The stored reset date, seen through absence of the row. -/
def dateOf : Option UserCredits → Option Nat
  | none => none
  | some c => c.quota_reset_date

/-- Order on optional dates with `none` (never reset / no row) at the bottom. -/
def dateLe : Option Nat → Option Nat → Bool
  | none, _ => true
  | some _, none => false
  | some a, some b => decide (a ≤ b)

/-- Run a trace of operations; each entry carries the day it executes on. -/
def runTrace : List (Op × Nat) → Option UserCredits → Option UserCredits
  | [], s => s
  | (op, d) :: rest, s => runTrace rest (stepState op d s)

/-- A trace is chronological above a lower bound: the days are nondecreasing
and never before the bound. -/
def chronological : Option Nat → List (Op × Nat) → Bool
  | _, [] => true
  | lb, (_, d) :: rest => dateLe lb (some d) && chronological (some d) rest

/-- A sequence of bare `consume` calls (day, fixed cost, actual tokens, flag). -/
def consumeSeq : List (Nat × Int × Option Int × Bool) → Option UserCredits →
    Option UserCredits
  | [], s => s
  | (d, cost, act, a) :: rest, s => consumeSeq rest (consume d cost act a s).2

/-- What an operation may do to a record whose reset date is already today:
the read-only operations leave the record untouched, `consume` either leaves
it untouched (on failure) or debits exactly its effective cost, and
`add_credits` either leaves it untouched (on refusal) or credits exactly the
bonus amount — in particular the balance is never snapped back to the daily
quota and the reset date never moves. -/
def same_day_effect (op : Op) (today : Nat) (c : UserCredits) : Prop :=
  match op with
  | Op.getOrCreate _ => stepState op today (some c) = some c
  | Op.getBalance _ => stepState op today (some c) = some c
  | Op.ensureSufficient _ _ _ => stepState op today (some c) = some c
  | Op.consume cost act _ =>
      stepState op today (some c) = some c ∨
      stepState op today (some c) =
        some { c with credits := c.credits - resolve_cost cost act }
  | Op.addBonus amount _ =>
      stepState op today (some c) = some c ∨
      stepState op today (some c) =
        some { c with credits := c.credits + amount }

/-! ## Basic facts about the embedded operations -/

theorem calculate_cost_eq_of_pos (t : Int) (h : 0 < t) :
    calculate_cost_from_tokens t = (t + 999) / 1000 := by
  unfold calculate_cost_from_tokens TOKENS_PER_GEM
  rw [if_neg (by omega), Int.fdiv_eq_ediv _ (by norm_num : (0:Int) ≤ 1000)]
  omega

theorem get_daily_quota_pos (a : Bool) : 0 < get_daily_quota a := by
  cases a <;> decide

theorem should_reset_quota_of_date_today (today : Nat) (c : UserCredits)
    (h : c.quota_reset_date = some today) :
    should_reset_quota today c = false := by
  unfold should_reset_quota
  rw [h]
  simp only [decide_eq_false_iff_not]
  omega

theorem should_reset_quota_get_or_create (today : Nat) (a : Bool)
    (s : Option UserCredits) :
    should_reset_quota today (get_or_create today a s) = false := by
  match s with
  | none => exact should_reset_quota_of_date_today today _ rfl
  | some c =>
    by_cases h : should_reset_quota today c
    · simp only [get_or_create, h, ite_true]
      exact should_reset_quota_of_date_today today _ rfl
    · simp only [get_or_create, h, Bool.false_eq_true, ite_false]

theorem get_or_create_same_day (today : Nat) (a : Bool) (c : UserCredits)
    (h : c.quota_reset_date = some today) :
    get_or_create today a (some c) = c := by
  have hs := should_reset_quota_of_date_today today c h
  simp only [get_or_create, hs, Bool.false_eq_true, ite_false]

theorem get_or_create_date (today : Nat) (a : Bool) (s : Option UserCredits)
    (h : dateLe (dateOf s) (some today) = true) :
    (get_or_create today a s).quota_reset_date = some today := by
  match s with
  | none => rfl
  | some ⟨cr, none⟩ => rfl
  | some ⟨cr, some d⟩ =>
    have hd : d ≤ today := by simpa [dateOf, dateLe] using h
    by_cases hlt : d < today
    · simp [get_or_create, should_reset_quota, hlt]
    · have hdt : d = today := by omega
      subst hdt
      simp [get_or_create, should_reset_quota]

theorem get_or_create_credits_nonneg (today : Nat) (a : Bool)
    (s : Option UserCredits) (h : balNonneg s = true) :
    0 ≤ (get_or_create today a s).credits := by
  unfold get_or_create
  match s with
  | none => exact le_of_lt (get_daily_quota_pos a)
  | some c =>
    by_cases hr : should_reset_quota today c
    · simp only [hr, ite_true]
      exact le_of_lt (get_daily_quota_pos a)
    · simp only [hr, Bool.false_eq_true, ite_false]
      unfold balNonneg at h
      exact of_decide_eq_true h

/-! ## Claim theorems -/

/-- C9: class-correct seeding — on a missing row, `get_or_create` with the
trial flag creates the account with balance 10, with the full flag balance 30,
in both cases with `quota_reset_date = today`, and persists exactly that row. -/
theorem get_or_create_seeding (today : Nat) :
    get_or_create today true none =
      { credits := 10, quota_reset_date := some today } ∧
    get_or_create today false none =
      { credits := 30, quota_reset_date := some today } ∧
    get_or_create_state today true none =
      some { credits := 10, quota_reset_date := some today } ∧
    get_or_create_state today false none =
      some { credits := 30, quota_reset_date := some today } :=
  ⟨rfl, rfl, rfl, rfl⟩

/-- C3: `calculate_cost_from_tokens` is pure; it returns 1 for every
nonpositive token count, and for a positive token count `t` it returns the
least integer `n ≥ 1` with `t ≤ TOKENS_PER_GEM * n` — that is,
`ceil(t / 1000)` clamped to a minimum of 1.  The listed concrete values hold
and the function is monotone nondecreasing. -/
theorem calculate_cost_from_tokens_spec :
    (∀ t : Int, t ≤ 0 → calculate_cost_from_tokens t = 1) ∧
    (∀ t : Int, 0 < t →
      1 ≤ calculate_cost_from_tokens t ∧
      t ≤ TOKENS_PER_GEM * calculate_cost_from_tokens t ∧
      ∀ n : Int, 1 ≤ n → t ≤ TOKENS_PER_GEM * n →
        calculate_cost_from_tokens t ≤ n) ∧
    calculate_cost_from_tokens 0 = 1 ∧
    calculate_cost_from_tokens 1 = 1 ∧
    calculate_cost_from_tokens 1000 = 1 ∧
    calculate_cost_from_tokens 1001 = 2 ∧
    calculate_cost_from_tokens (-5) = 1 ∧
    ∀ t1 t2 : Int, t1 ≤ t2 →
      calculate_cost_from_tokens t1 ≤ calculate_cost_from_tokens t2 := by
  have hnp : ∀ t : Int, t ≤ 0 → calculate_cost_from_tokens t = 1 := by
    intro t ht
    unfold calculate_cost_from_tokens
    rw [if_pos ht]
  have hpos : ∀ t : Int, 0 < t →
      1 ≤ calculate_cost_from_tokens t ∧
      t ≤ TOKENS_PER_GEM * calculate_cost_from_tokens t ∧
      ∀ n : Int, 1 ≤ n → t ≤ TOKENS_PER_GEM * n →
        calculate_cost_from_tokens t ≤ n := by
    intro t ht
    rw [calculate_cost_eq_of_pos t ht]
    unfold TOKENS_PER_GEM
    refine ⟨by omega, by omega, ?_⟩
    intro n h1 hn
    omega
  refine ⟨hnp, hpos, by decide, by decide, by decide, by decide, by decide, ?_⟩
  intro t1 t2 h12
  by_cases h1 : t1 ≤ 0
  · rw [hnp t1 h1]
    by_cases h2 : t2 ≤ 0
    · rw [hnp t2 h2]
    · exact (hpos t2 (by omega)).1
  · rw [calculate_cost_eq_of_pos t1 (by omega),
      calculate_cost_eq_of_pos t2 (by omega)]
    omega

/-- C3 at a concrete input (monotonicity applied at 500 ≤ 2500). -/
theorem calculate_cost_from_tokens_spec_witness :
    calculate_cost_from_tokens 500 ≤ calculate_cost_from_tokens 2500 :=
  calculate_cost_from_tokens_spec.2.2.2.2.2.2.2 500 2500 (by decide)

/-- C4: while `quota_reset_date` is already today, any number of further
`get_or_create` calls on the same day (with any mix of class flags) leaves the
stored record — balance and reset date — unchanged. -/
theorem get_or_create_idempotent_same_day (today : Nat) (c : UserCredits)
    (h : c.quota_reset_date = some today) :
    ∀ flags : List Bool,
      List.foldl (fun s a => get_or_create_state today a s) (some c) flags =
        some c := by
  have hstep : ∀ a : Bool, get_or_create_state today a (some c) = some c := by
    intro a
    unfold get_or_create_state
    rw [get_or_create_same_day today a c h]
  intro flags
  induction flags with
  | nil => rfl
  | cons a rest ih =>
      rw [List.foldl_cons, hstep a]
      exact ih

/-- C4 at a concrete input (three same-day calls on a freshly reset record). -/
theorem get_or_create_idempotent_same_day_witness :
    List.foldl (fun s a => get_or_create_state 4 a s)
      (some { credits := 30, quota_reset_date := some 4 })
      [true, false, false] =
      some { credits := 30, quota_reset_date := some 4 } :=
  get_or_create_idempotent_same_day 4
    { credits := 30, quota_reset_date := some 4 } rfl [true, false, false]

/-- C2: whenever `actual_tokens` is supplied and positive, `consume` charges
`calculate_cost_from_tokens actual_tokens` and the fixed cost argument is
ignored (the whole outcome is independent of it); the end-to-end scenario
holds: the fresh full account is seeded at 30, `ensure_credits` with cost 5
passes without mutation, and `consume` with fixed cost 5 but
`actual_tokens = 2500` charges `ceil(2500/1000) = 3`, yielding balance 27. -/
theorem consume_token_cost_override :
    (∀ (today : Nat) (cost1 cost2 t : Int) (a : Bool) (s : Option UserCredits),
        0 < t →
        consume today cost1 (some t) a s = consume today cost2 (some t) a s ∧
        resolve_cost cost1 (some t) = calculate_cost_from_tokens t) ∧
    get_or_create_state 0 false none =
      some { credits := 30, quota_reset_date := some 0 } ∧
    ensure_credits 0 5 none false
        (some { credits := 30, quota_reset_date := some 0 }) =
      (Except.ok (), some { credits := 30, quota_reset_date := some 0 }) ∧
    calculate_cost_from_tokens 2500 = 3 ∧
    consume 0 5 (some 2500) false
        (some { credits := 30, quota_reset_date := some 0 }) =
      (Except.ok 27, some { credits := 27, quota_reset_date := some 0 }) := by
  refine ⟨?_, rfl, rfl, by decide, rfl⟩
  intro today cost1 cost2 t a s ht
  constructor
  · simp [consume, resolve_cost, ht]
  · simp [resolve_cost, ht]

/-- C2 at a concrete input (fixed cost 5 overridden for 2500 tokens). -/
theorem consume_token_cost_override_witness :
    resolve_cost 5 (some 2500) = calculate_cost_from_tokens 2500 :=
  (consume_token_cost_override.1 3 5 99 2500 false none (by decide)).2

theorem ensure_credits_state (today : Nat) (cost : Int) (est : Option Int)
    (a : Bool) (s : Option UserCredits) :
    (ensure_credits today cost est a s).2 = get_or_create_state today a s := by
  simp only [ensure_credits, get_or_create_state]
  split <;> rfl

/-- C6 counterexample: on an absent row, `ensure_credits` is not mutation
free — it lazily creates and persists the account via `get_or_create`. -/
theorem ensure_credits_creates_row :
    (ensure_credits 0 5 none false none).2 ≠ none := by decide

/-- C6 amended: `ensure_credits` never debits and performs no mutation of its
own — its persisted post-state is exactly `get_or_create`'s post-state (lazy
creation / daily reset only); in particular, when the account already exists
with `quota_reset_date = today`, the store is left exactly as it was. -/
theorem ensure_credits_no_mutation_beyond_get_or_create
    (today : Nat) (cost : Int) (est : Option Int) (a : Bool)
    (s : Option UserCredits) :
    (ensure_credits today cost est a s).2 = get_or_create_state today a s ∧
    (∀ c : UserCredits, s = some c → c.quota_reset_date = some today →
      (ensure_credits today cost est a s).2 = s) := by
  have hbase := ensure_credits_state today cost est a s
  refine ⟨hbase, ?_⟩
  intro c hs hd
  subst hs
  rw [hbase]
  unfold get_or_create_state
  rw [get_or_create_same_day today a c hd]

/-- C6 amended claim at a concrete input (existing same-day row untouched). -/
theorem ensure_credits_no_mutation_witness :
    (ensure_credits 0 5 none false
        (some { credits := 7, quota_reset_date := some 0 })).2 =
      some { credits := 7, quota_reset_date := some 0 } :=
  (ensure_credits_no_mutation_beyond_get_or_create 0 5 none false
    (some { credits := 7, quota_reset_date := some 0 })).2
    { credits := 7, quota_reset_date := some 0 } rfl rfl

theorem add_credits_error_iff (today : Nat) (amount : Int) (a : Bool)
    (s : Option UserCredits) :
    (add_credits today amount a s).1 =
        Except.error CreditsError.quotaExhaustedForToday ↔
      (get_or_create today a s).credits = 0 ∧
      (get_or_create today a s).quota_reset_date = some today := by
  by_cases hcond : (get_or_create today a s).credits = 0 ∧
      (get_or_create today a s).quota_reset_date = some today
  · simp [add_credits, get_or_create_state, hcond]
  · simp [add_credits, get_or_create_state, hcond]

theorem get_or_create_of_credits_zero (today : Nat) (a : Bool)
    (s : Option UserCredits)
    (h : (get_or_create today a s).credits = 0) :
    s = some (get_or_create today a s) := by
  match s with
  | none =>
    exfalso
    have hq := get_daily_quota_pos a
    simp [get_or_create] at h
    omega
  | some c =>
    by_cases hr : should_reset_quota today c
    · exfalso
      have hq := get_daily_quota_pos a
      simp [get_or_create, hr] at h
      omega
    · simp [get_or_create, hr]

/-- C7: on an account with balance exactly 0 and `quota_reset_date = today`,
`add_credits` with any positive amount fails with `quotaExhaustedForToday`
and leaves the store unchanged; conversely, `quotaExhaustedForToday` is
raised only in that refusal situation (the pre-state had a row with balance 0
and reset date equal to today). -/
theorem add_bonus_refusal :
    (∀ (today : Nat) (amount : Int) (a : Bool) (c : UserCredits),
        0 < amount → c.credits = 0 → c.quota_reset_date = some today →
        (add_credits today amount a (some c)).1 =
          Except.error CreditsError.quotaExhaustedForToday ∧
        (add_credits today amount a (some c)).2 = some c) ∧
    (∀ (today : Nat) (amount : Int) (a : Bool) (s : Option UserCredits),
        (add_credits today amount a s).1 =
          Except.error CreditsError.quotaExhaustedForToday →
        ∃ c : UserCredits, s = some c ∧ c.credits = 0 ∧
          c.quota_reset_date = some today) := by
  constructor
  · intro today amount a c hpos h0 hd
    have hg : get_or_create today a (some c) = c :=
      get_or_create_same_day today a c hd
    constructor
    · exact (add_credits_error_iff today amount a (some c)).mpr
        (by rw [hg]; exact ⟨h0, hd⟩)
    · simp [add_credits, get_or_create_state, hg, h0, hd]
  · intro today amount a s herr
    have hc := (add_credits_error_iff today amount a s).mp herr
    have hs := get_or_create_of_credits_zero today a s hc.1
    exact ⟨get_or_create today a s, hs, hc.1, hc.2⟩

/-- C7 at a concrete input (exhausted same-day account refuses a bonus of 5). -/
theorem add_bonus_refusal_witness :
    (add_credits 6 5 false
        (some { credits := 0, quota_reset_date := some 6 })).1 =
      Except.error CreditsError.quotaExhaustedForToday :=
  (add_bonus_refusal.1 6 5 false
    { credits := 0, quota_reset_date := some 6 } (by decide) rfl rfl).1

/-- C8: on a full account with balance 0 whose reset date is yesterday,
`add_credits` with amount 5 first applies the daily reset to 30 and then adds
the bonus, returning balance 35 and persisting exactly that. -/
theorem add_bonus_after_cross_day_reset (today : Nat) (h : 1 ≤ today) :
    add_credits today 5 false
        (some { credits := 0, quota_reset_date := some (today - 1) }) =
      (Except.ok 35, some { credits := 35, quota_reset_date := some today }) := by
  have hr : should_reset_quota today
      { credits := 0, quota_reset_date := some (today - 1) } = true := by
    unfold should_reset_quota
    simp only [decide_eq_true_eq]
    omega
  have hg : get_or_create today false
      (some { credits := 0, quota_reset_date := some (today - 1) }) =
      { credits := 30, quota_reset_date := some today } := by
    simp [get_or_create, hr, get_daily_quota, DAILY_QUOTA_FULL]
  have hnr := should_reset_quota_of_date_today today
    { credits := 30, quota_reset_date := some today } rfl
  simp [add_credits, get_or_create_state, hg, hnr]

/-- C8 at a concrete input (yesterday = day 0, today = day 1). -/
theorem add_bonus_after_cross_day_reset_witness :
    add_credits 1 5 false
        (some { credits := 0, quota_reset_date := some 0 }) =
      (Except.ok 35, some { credits := 35, quota_reset_date := some 1 }) :=
  add_bonus_after_cross_day_reset 1 (by decide)

theorem consume_preserves_balNonneg (today : Nat) (cost : Int)
    (act : Option Int) (a : Bool) (s : Option UserCredits)
    (h : balNonneg s = true) :
    balNonneg (consume today cost act a s).2 = true := by
  have hg := get_or_create_credits_nonneg today a s h
  have hnr := should_reset_quota_get_or_create today a s
  simp only [consume, get_or_create_state, hnr, Bool.false_eq_true, ite_false]
  split
  · simp only [balNonneg, decide_eq_true_eq]
    exact hg
  · rename_i hok
    simp only [balNonneg, decide_eq_true_eq]
    omega

theorem consumeSeq_balNonneg (ops : List (Nat × Int × Option Int × Bool))
    (s : Option UserCredits) (h : balNonneg s = true) :
    balNonneg (consumeSeq ops s) = true := by
  induction ops generalizing s with
  | nil => exact h
  | cons p rest ih =>
      obtain ⟨d, cost, act, a⟩ := p
      exact ih _ (consume_preserves_balNonneg d cost act a s h)

/-- C1: starting from any store state with a nonnegative balance, every
sequence of `consume` calls keeps the observable balance nonnegative; and any
single `consume` whose effective cost exceeds the post-reset balance fails
with `insufficientBalance` and commits no debit — the persisted state is
exactly the state `get_or_create` left behind. -/
theorem consume_never_negative :
    (∀ (ops : List (Nat × Int × Option Int × Bool)) (s : Option UserCredits),
        balNonneg s = true → balNonneg (consumeSeq ops s) = true) ∧
    (∀ (today : Nat) (cost : Int) (act : Option Int) (a : Bool)
        (s : Option UserCredits),
        (get_or_create today a s).credits < resolve_cost cost act →
        (consume today cost act a s).1 =
          Except.error (CreditsError.insufficientBalance
            (get_or_create today a s).credits (resolve_cost cost act)) ∧
        (consume today cost act a s).2 = get_or_create_state today a s) := by
  constructor
  · exact consumeSeq_balNonneg
  · intro today cost act a s hlt
    have hnr := should_reset_quota_get_or_create today a s
    simp only [consume, get_or_create_state, hnr, Bool.false_eq_true,
      ite_false, hlt, ite_true]
    exact ⟨trivial, trivial⟩

/-- C1 at a concrete input: an overdraw attempt (cost 7 against balance 3)
followed by an affordable call keeps the balance nonnegative. -/
theorem consume_never_negative_witness :
    balNonneg (consumeSeq [(2, 7, none, false), (2, 1, none, false)]
      (some { credits := 3, quota_reset_date := some 2 })) = true :=
  consume_never_negative.1 [(2, 7, none, false), (2, 1, none, false)]
    (some { credits := 3, quota_reset_date := some 2 }) (by decide)

theorem dateLe_refl (x : Option Nat) : dateLe x x = true := by
  match x with
  | none => rfl
  | some a => simp [dateLe]

theorem dateLe_trans (x y z : Option Nat) (h1 : dateLe x y = true)
    (h2 : dateLe y z = true) : dateLe x z = true := by
  match x, y, z with
  | none, _, _ => rfl
  | some a, none, _ => simp [dateLe] at h1
  | some a, some b, none => simp [dateLe] at h2
  | some a, some b, some d =>
      simp only [dateLe, decide_eq_true_eq] at h1 h2 ⊢
      omega

theorem consume_state_date (today : Nat) (cost : Int) (act : Option Int)
    (a : Bool) (s : Option UserCredits)
    (h : dateLe (dateOf s) (some today) = true) :
    dateOf (consume today cost act a s).2 = some today := by
  have hnr := should_reset_quota_get_or_create today a s
  have hd := get_or_create_date today a s h
  simp only [consume, get_or_create_state, hnr, Bool.false_eq_true, ite_false]
  split
  · simpa [dateOf] using hd
  · simpa [dateOf] using hd

theorem add_credits_state_date (today : Nat) (amount : Int) (a : Bool)
    (s : Option UserCredits)
    (h : dateLe (dateOf s) (some today) = true) :
    dateOf (add_credits today amount a s).2 = some today := by
  have hnr := should_reset_quota_get_or_create today a s
  have hd := get_or_create_date today a s h
  simp only [add_credits, get_or_create_state]
  split
  · simpa [dateOf] using hd
  · simp only [hnr, Bool.false_eq_true, ite_false]
    simpa [dateOf] using hd

theorem stepState_date (op : Op) (today : Nat) (s : Option UserCredits)
    (h : dateLe (dateOf s) (some today) = true) :
    dateOf (stepState op today s) = some today := by
  cases op with
  | getOrCreate a =>
      simpa [stepState, get_or_create_state, dateOf] using
        get_or_create_date today a s h
  | getBalance a =>
      simpa [stepState, get_or_create_state, dateOf] using
        get_or_create_date today a s h
  | ensureSufficient cost est a =>
      rw [stepState, ensure_credits_state]
      simpa [get_or_create_state, dateOf] using get_or_create_date today a s h
  | consume cost act a => exact consume_state_date today cost act a s h
  | addBonus amount a => exact add_credits_state_date today amount a s h

theorem chronological_mono (x y : Option Nat) (tr : List (Op × Nat))
    (hxy : dateLe x y = true) (h : chronological y tr = true) :
    chronological x tr = true := by
  match tr with
  | [] => rfl
  | (op, d) :: rest =>
      simp only [chronological, Bool.and_eq_true] at h ⊢
      exact ⟨dateLe_trans x y (some d) hxy h.1, h.2⟩

theorem runTrace_date_mono (tr : List (Op × Nat)) (s : Option UserCredits)
    (h : chronological (dateOf s) tr = true) :
    dateLe (dateOf s) (dateOf (runTrace tr s)) = true := by
  induction tr generalizing s with
  | nil => exact dateLe_refl _
  | cons p rest ih =>
      obtain ⟨op, d⟩ := p
      simp only [chronological, Bool.and_eq_true] at h
      have hstep := stepState_date op d s h.1
      have hrest : chronological (dateOf (stepState op d s)) rest = true := by
        rw [hstep]
        exact h.2
      have htail := ih (stepState op d s) hrest
      rw [hstep] at htail
      exact dateLe_trans _ _ _ h.1 htail

/-- C5: along every chronological trace of ledger operations (days
nondecreasing and never before the stored date), `quota_reset_date` never
moves backwards; and once the stored date equals today, any further
operation on that day keeps the date at today and only applies its own
debit / credit — the balance is never reset to the daily quota again
(`should_reset_quota` is false) until the calendar date advances. -/
theorem quota_reset_date_monotone :
    (∀ (tr : List (Op × Nat)) (s : Option UserCredits),
        chronological (dateOf s) tr = true →
        dateLe (dateOf s) (dateOf (runTrace tr s)) = true) ∧
    (∀ (op : Op) (today : Nat) (c : UserCredits),
        c.quota_reset_date = some today →
        should_reset_quota today c = false ∧
        dateOf (stepState op today (some c)) = some today ∧
        same_day_effect op today c) := by
  constructor
  · exact runTrace_date_mono
  · intro op today c hd
    have hle : dateLe (dateOf (some c)) (some today) = true := by
      simp [dateOf, dateLe, hd]
    refine ⟨should_reset_quota_of_date_today today c hd,
      stepState_date op today (some c) hle, ?_⟩
    cases op with
    | getOrCreate a =>
        simp [same_day_effect, stepState, get_or_create_state,
          get_or_create_same_day today a c hd]
    | getBalance a =>
        simp [same_day_effect, stepState, get_or_create_state,
          get_or_create_same_day today a c hd]
    | ensureSufficient cost est a =>
        simp only [same_day_effect, stepState]
        rw [ensure_credits_state]
        simp [get_or_create_state, get_or_create_same_day today a c hd]
    | consume cost act a =>
        have hg := get_or_create_same_day today a c hd
        have hnr := should_reset_quota_of_date_today today c hd
        simp only [same_day_effect, stepState, consume, get_or_create_state,
          hg, hnr, Bool.false_eq_true, ite_false]
        by_cases hlt : c.credits < resolve_cost cost act
        · left
          simp [hlt]
        · right
          simp [hlt]
    | addBonus amount a =>
        have hg := get_or_create_same_day today a c hd
        have hnr := should_reset_quota_of_date_today today c hd
        simp only [same_day_effect, stepState, add_credits,
          get_or_create_state, hg, hnr, Bool.false_eq_true, ite_false]
        by_cases hz : c.credits = 0 ∧ c.quota_reset_date = some today
        · left
          simp [hz]
        · right
          simp [hz]

/-- C5 at a concrete input: a two-day trace never moves the date backwards. -/
theorem quota_reset_date_monotone_witness :
    dateLe (dateOf (some { credits := 3, quota_reset_date := some 0 }))
      (dateOf (runTrace
        [(Op.getOrCreate false, 1), (Op.consume 5 none false, 2)]
        (some { credits := 3, quota_reset_date := some 0 }))) = true :=
  quota_reset_date_monotone.1
    [(Op.getOrCreate false, 1), (Op.consume 5 none false, 2)]
    (some { credits := 3, quota_reset_date := some 0 }) (by decide)

/-- C10: from any store state satisfying the reachability invariant (the
stored reset date, if any, is not in the future), every operation that
completes successfully leaves a row for the user whose `quota_reset_date` is
today — no operation returns successfully with the account absent or its
reset date stale. -/
theorem success_implies_fresh_row (op : Op) (today : Nat)
    (s : Option UserCredits)
    (h : dateLe (dateOf s) (some today) = true)
    (hok : stepOk op today s = true) :
    ∃ c : UserCredits, stepState op today s = some c ∧
      c.quota_reset_date = some today := by
  have hd := stepState_date op today s h
  match hs : stepState op today s with
  | none =>
      rw [hs] at hd
      exact absurd hd (by simp [dateOf])
  | some c =>
      rw [hs] at hd
      exact ⟨c, rfl, hd⟩

/-- C10 at a concrete input: a successful `consume` on a stale account exists
with today's reset date afterwards. -/
theorem success_implies_fresh_row_witness :
    ∃ c : UserCredits,
      stepState (Op.consume 5 none false) 2
        (some { credits := 3, quota_reset_date := some 1 }) = some c ∧
      c.quota_reset_date = some 2 :=
  success_implies_fresh_row (Op.consume 5 none false) 2
    (some { credits := 3, quota_reset_date := some 1 }) (by decide) (by decide)

end CreditsService
